import Mathlib

/-!
Verification of the Azul rules engine (Rust) against its natural-language
specification.  The Rust sources are shallowly embedded: every definition below
mirrors one function of the repository (file and symbol named in its doc
comment).  Machine integers (`usize`) become `Nat`; Rust's saturating and
truncating subtractions coincide with `Nat` subtraction.  `Vec<T>` and arrays
become `List`.  Rust functions that can panic are modelled either with an
explicit `fatal` outcome (the FEN decoder) or, where a panic is impossible for
the states the engine actually builds (fixed 5x5 arrays), with the default
value conventions documented at each site.  Randomness (bag shuffling) is
modelled by explicit reordering parameters; reachability quantifies over all
permutations.
-/

namespace Azul

/-- Tile alias, from `src/movegen/src/lib.rs` (`pub type Tile = usize`). -/
abbrev Tile := Nat

/-- Destination row of a move, from `src/movegen/src/row.rs`. -/
inductive Row where
  | Floor : Row
  | Wall : Nat → Row
deriving DecidableEq, Repr

/-- A move in gameplay, from `src/movegen/src/game_move.rs`. -/
structure Move where
  bowl : Nat
  tile_type : Tile
  row : Row
deriving DecidableEq, Repr

/-- Board dimension constant, `src/movegen/src/board.rs` line 5. -/
def BOARD_DIMENSION : Nat := 5

/-- Row completion bonus, `src/movegen/src/board.rs` line 8. -/
def ROW_BONUS : Nat := 2

/-- Column completion bonus, `src/movegen/src/board.rs` line 11. -/
def COLUMN_BONUS : Nat := 7

/-- Tile-type completion bonus, `src/movegen/src/board.rs` line 14. -/
def TILE_TYPE_BONUS : Nat := 10

/-- Tiles of each type in the initial supply, `src/movegen/src/gamestate.rs` line 11. -/
def TILES_PER_TYPE : Nat := 20

/-- Bowl restock capacity, `src/movegen/src/gamestate.rs` line 14. -/
def BOWL_CAPACITY : Nat := 4

/-- Index of the centre bowl, `src/movegen/src/gamestate.rs` line 18. -/
def CENTRE_BOWL_IDX : Nat := 0

/-- One cell of a staging or wall grid: `Option<Tile>`. -/
abbrev Cell := Option Tile

/-- A 5x5 grid (`[[Option<Tile>; 5]; 5]` in Rust). -/
abbrev Grid := List (List Cell)

/-- Collected-bonus flags, from `src/movegen/src/board.rs` (`struct BonusTypes`). -/
structure BonusTypes where
  rows : List Bool
  columns : List Bool
  tile_types : List Bool
deriving DecidableEq, Repr

/-- A player's board, from `src/movegen/src/board.rs` (`struct Board`). -/
structure Board where
  holds : Grid
  placed : Grid
  bonuses : BonusTypes
  penalties : Nat
  score : Nat
deriving DecidableEq, Repr

/-- Rust `Option::is_some_and`. -/
def isSomeAnd (p : α → Bool) : Option α → Bool
  | some x => p x
  | none => false

/-- Default board (`Board::default()` / `Board::new()`): empty 5x5 grids,
no bonuses, no penalties, zero score. -/
def Board.default : Board :=
  { holds := List.replicate BOARD_DIMENSION (List.replicate BOARD_DIMENSION none)
    placed := List.replicate BOARD_DIMENSION (List.replicate BOARD_DIMENSION none)
    bonuses := { rows := List.replicate BOARD_DIMENSION false
                 columns := List.replicate BOARD_DIMENSION false
                 tile_types := List.replicate BOARD_DIMENSION false }
    penalties := 0
    score := 0 }

instance : Inhabited Board := ⟨Board.default⟩

/-- Column where a tile of `tile_type` is placed in `row_idx`:
`Board::get_tile_place_col`, `src/movegen/src/board.rs` line 274. -/
def get_tile_place_col (tile_type : Tile) (row_idx : Nat) : Nat :=
  (tile_type + row_idx) % BOARD_DIMENSION

/-- Tile type allowed at a wall position: `Board::get_tile_type_at_pos`,
`src/movegen/src/board.rs` line 263.  Rust evaluates `col + 5 - row` in
`usize`; for the in-range arguments the engine uses (`row <= 4`) no
underflow occurs, matching `Nat` subtraction. -/
def get_tile_type_at_pos (row col : Nat) : Tile :=
  (col + BOARD_DIMENSION - row) % BOARD_DIMENSION

/-- Penalty-point table lookup: `Board::get_penalty_point_value`,
`src/movegen/src/board.rs` line 279. -/
def get_penalty_point_value (penalty_tiles : Nat) : Nat :=
  (([1, 1, 2, 2, 2, 3, 3] : List Nat).take penalty_tiles).sum

/-- All tiles on a board (held then placed), `Board::get_active_tiles`,
`src/movegen/src/board.rs` line 42. -/
def Board.get_active_tiles (b : Board) : List Tile :=
  (b.holds.flatten ++ b.placed.flatten).filterMap id

/-- Valid rows for a tile type: `Board::get_valid_rows_for_tile_type`,
`src/movegen/src/board.rs` lines 52-75.  A staging row is skipped when it
holds a different type anywhere, or when the destination wall cell already
holds this very type (Rust's `is_some_and(|t| t == tile_type)`).  The Rust
`expect` calls can only fire on grids narrower than 5x5, which the Rust
types rule out; `getD` supplies the (unreachable) default there. -/
def Board.get_valid_rows_for_tile_type (b : Board) (tile_type : Tile) : List Row :=
  (b.holds.enum.filterMap (fun p =>
    let row_idx := p.1
    let hold := p.2
    if hold.any (fun c => isSomeAnd (fun x => x ≠ tile_type) c) then none
    else if isSomeAnd (fun t => t == tile_type)
        ((b.placed.getD row_idx []).getD (get_tile_place_col tile_type row_idx) none) then none
    else some (Row.Wall row_idx))) ++ [Row.Floor]

/-- Staging of tiles: `Board::hold_tiles`, `src/movegen/src/board.rs`
lines 83-122.  Returns `none` for the `IllegalMoveError` case; Rust performs
no mutation before either error exit, so the unchanged board is implicit.
`Row::Floor` adds `tile_count` penalties and returns immediately (note: the
`penalty` argument is NOT added on this path in the source).  On a wall row
the first `min(tile_count, row_idx+1)` cells are overwritten with the type,
the overflow (`tile_count - capacity`, saturating) plus `penalty` is added
to the penalty counter. -/
def Board.hold_tiles (b : Board) (tile_type : Tile) (tile_count : Nat)
    (row : Row) (penalty : Nat) : Option Board :=
  match row with
  | Row.Floor => some { b with penalties := b.penalties + tile_count }
  | Row.Wall row_idx =>
    match b.holds[row_idx]? with
    | none => none
    | some hold =>
      -- Rust reads `row.first().unwrap()`: the first cell of a `[Option<Tile>; 5]`.
      if isSomeAnd (fun t => t ≠ tile_type) (hold.headD none) then none
      else
        let row_capacity := row_idx + 1
        let k := min tile_count row_capacity
        let hold' := hold.enum.map (fun p => if p.1 < k then some tile_type else p.2)
        let overflow := tile_count - row_capacity
        some { b with holds := b.holds.set row_idx hold'
                      penalties := b.penalties + overflow + penalty }

/-- Walk used by scoring: `Board::count_in_direction`,
`src/movegen/src/board.rs` lines 284-305.  The Rust loop leaves the 5x5
grid after at most `BOARD_DIMENSION` steps, so that is exact fuel. -/
def countDirGo (placed : Grid) (drow dcol : Int) : Nat → Int → Int → Nat
  | 0, _, _ => 0
  | fuel + 1, row, col =>
    let row' := row + drow
    let col' := col + dcol
    if row' < 0 || col' < 0 then 0
    else
      match (placed.getD row'.toNat []).getD col'.toNat none with
      | some _ => 1 + countDirGo placed drow dcol fuel row' col'
      | none => 0

/-- Entry point of the scoring walk (`count_in_direction`). -/
def count_in_direction (placed : Grid) (row col drow dcol : Int) : Nat :=
  countDirGo placed drow dcol BOARD_DIMENSION row col

/-- One iteration of the `place_holds` row loop (body of the `for` over
`self.holds` in `src/movegen/src/board.rs` lines 131-190). -/
def Board.placeHoldsRow (b : Board) (row_idx : Nat) : Board :=
  match b.holds[row_idx]? with
  | none => b
  | some hold =>
    let tiles_in_row := (hold.filter Option.isSome).length
    if tiles_in_row > row_idx then
      match hold.headD none with
      | none => b  -- Rust `row[0].unwrap()` would panic; unreachable for left-packed rows
      | some tile_type =>
        let col_idx := get_tile_place_col tile_type row_idx
        let placed := b.placed.set row_idx ((b.placed.getD row_idx []).set col_idx (some tile_type))
        let h_line := 1 + count_in_direction placed row_idx col_idx 0 1
          + count_in_direction placed row_idx col_idx 0 (-1)
        let v_line := 1 + count_in_direction placed row_idx col_idx 1 0
          + count_in_direction placed row_idx col_idx (-1) 0
        let gained :=
          if h_line == 1 && v_line == 1 then 1
          else (if h_line > 1 then h_line else 0) + (if v_line > 1 then v_line else 0)
        { b with placed := placed
                 score := b.score + gained
                 holds := b.holds.set row_idx (hold.map (fun _ => none)) }
    else b

/-- One bonus family of `Board::apply_uncollected_bonuses`: walk the claimed
flags with their indices, award `bonus` for each unclaimed index whose
`check` holds, and mark it claimed. -/
def collectBonuses (check : Nat → Bool) (bonus : Nat) : Nat → List Bool → List Bool × Nat
  | _, [] => ([], 0)
  | i, c :: rest =>
    let r := collectBonuses check bonus (i + 1) rest
    if c then (c :: r.1, r.2)
    else if check i then (true :: r.1, r.2 + bonus)
    else (c :: r.1, r.2)

/-- Bonus pass: `Board::apply_uncollected_bonuses`, `src/movegen/src/board.rs`
lines 204-247.  The row check tests that every cell of `placed[i]` is filled.
The column check is transcribed exactly as written in the source:
`self.placed.iter().all(|row| row.get(i).is_some())` tests only that index
`i` exists in each row (`Vec::get` returns `Option<&Option<Tile>>`), not that
the cell is filled.  The tile-type check counts filled cells of type `i`. -/
def Board.apply_uncollected_bonuses (b : Board) : Board :=
  let rowsR := collectBonuses
    (fun i => (b.placed.getD i []).all Option.isSome) ROW_BONUS 0 b.bonuses.rows
  let colsR := collectBonuses
    (fun i => b.placed.all (fun row => row[i]?.isSome)) COLUMN_BONUS 0 b.bonuses.columns
  let ttR := collectBonuses
    (fun i => ((b.placed.flatten.filterMap id).filter (fun t => t == i)).length == BOARD_DIMENSION)
    TILE_TYPE_BONUS 0 b.bonuses.tile_types
  { b with bonuses := { rows := rowsR.1, columns := colsR.1, tile_types := ttR.1 }
           score := b.score + rowsR.2 + colsR.2 + ttR.2 }

/-- Round resolution: `Board::place_holds`, `src/movegen/src/board.rs`
lines 130-200.  Rows are processed in order 0..4, then uncollected bonuses,
then penalties are converted to points (saturating at zero) and reset. -/
def Board.place_holds (b : Board) : Board :=
  let b := (List.range BOARD_DIMENSION).foldl Board.placeHoldsRow b
  let b := b.apply_uncollected_bonuses
  { b with score := b.score - get_penalty_point_value b.penalties
           penalties := 0 }

/-- Completed-row count: `Board::count_horizontal_lines`,
`src/movegen/src/board.rs` lines 250-255. -/
def Board.count_horizontal_lines (b : Board) : Nat :=
  (b.placed.filter (fun row => row.all Option.isSome)).length

/-- Score getter (`Board::get_score`). -/
def Board.get_score (b : Board) : Nat :=
  b.score

/-- A bowl of tiles, from `src/movegen/src/bowl.rs` (`struct Bowl`). -/
structure Bowl where
  tiles : List Tile
deriving DecidableEq, Repr

/-- Empty bowl (`Bowl::default()`). -/
def Bowl.default : Bowl := ⟨[]⟩

instance : Inhabited Bowl := ⟨Bowl.default⟩

/-- Ascending stable sort modelling Rust's `Vec::sort` on tiles.  Any sort
produces the same list of naturals, so insertion sort is used. -/
def sortTiles (l : List Tile) : List Tile :=
  l.insertionSort (· ≤ ·)

/-- Rust `Vec::dedup`: remove consecutive duplicates. -/
def dedupConsecutive : List Tile → List Tile
  | [] => []
  | [a] => [a]
  | a :: b :: rest =>
    if a == b then dedupConsecutive (b :: rest) else a :: dedupConsecutive (b :: rest)

/-- Bowl fill: `Bowl::fill`, assigns then sorts (`src/movegen/src/bowl.rs`). -/
def Bowl.fill (_b : Bowl) (tiles : List Tile) : Bowl :=
  ⟨sortTiles tiles⟩

/-- Bowl extend: `Bowl::extend`, appends then sorts. -/
def Bowl.extend (b : Bowl) (tiles : List Tile) : Bowl :=
  ⟨sortTiles (b.tiles ++ tiles)⟩

/-- Bowl extraction: `Bowl::take_tiles` returns the matching and the
remaining tiles, in order, and clears the bowl entirely. -/
def Bowl.take_tiles (b : Bowl) (tile_type : Tile) : (List Tile × List Tile) × Bowl :=
  ((b.tiles.filter (fun t => t == tile_type),
    b.tiles.filter (fun t => t != tile_type)), ⟨[]⟩)

/-- Distinct tile types of a bowl: `Bowl::get_tile_types` clones and calls
`Vec::dedup` (consecutive duplicates only). -/
def Bowl.get_tile_types (b : Bowl) : List Tile :=
  dedupConsecutive b.tiles

/-- The tile bag, from `src/movegen/src/bag.rs` (`struct Bag<T>`), at `T = Tile`.
Its `Iterator` impl pops items from the END of the vector. -/
structure Bag where
  items : List Tile
deriving DecidableEq, Repr

instance : Inhabited Bag := ⟨⟨[]⟩⟩

/-- Drawing up to `n` tiles from the bag by repeated `Vec::pop` (the `Iterator`
impl of `Bag`), returning the drawn tiles in pop order and the remaining bag. -/
def Bag.take : Bag → Nat → List Tile × Bag
  | b, 0 => ([], b)
  | b, n + 1 =>
    match b.items.getLast? with
    | none => ([], b)
    | some x =>
      let r := Bag.take ⟨b.items.dropLast⟩ n
      (x :: r.1, r.2)

/-- Outcome of a successful move (`Ok(())`) or an `IllegalMoveError`. -/
inductive MoveResult where
  | ok : MoveResult
  | illegal : MoveResult
deriving DecidableEq, Repr

/-- The complete game state, from `src/movegen/src/gamestate.rs`
(`struct GameState`). -/
structure GameState where
  active_player : Nat
  boards : List Board
  bowls : List Bowl
  bag : Bag
  first_token_owner : Option Nat
deriving DecidableEq, Repr

/-- Bowl-count formula (`get_bowl_count`, `src/movegen/src/gamestate.rs` line 32). -/
def get_bowl_count (players : Nat) : Nat :=
  players * 2 + 2

/-- Default tileset (`get_default_tileset`, `src/movegen/src/gamestate.rs`
lines 38-45): 20 tiles of each of the 5 types, in type order. -/
def get_default_tileset : List Tile :=
  (List.range BOARD_DIMENSION).flatMap (fun t => List.replicate TILES_PER_TYPE t)

/-- Fresh state: `GameState::new`.  Rust shuffles the default tileset into the
bag; the shuffle outcome is the explicit `bagOrder` parameter (reachability
requires it to be a permutation of the default tileset). -/
def GameState.new (players : Nat) (bagOrder : List Tile) : GameState :=
  { active_player := 0
    boards := List.replicate players Board.default
    bowls := List.replicate (get_bowl_count players) Bowl.default
    bag := ⟨bagOrder⟩
    first_token_owner := none }

/-- Refill of one non-centre bowl inside `GameState::setup_next_round`
(`src/movegen/src/gamestate.rs` lines 79-102).  `boards` are the boards
after `place_holds` (the Rust loop reads `&self.boards` after mutating
them).  When the first draw comes up short, the bag is restocked with
`20 - (tiles of that type on the boards)` tiles of each type — shuffled,
which `reorder` models — and drawing continues.  The `usize` subtraction in
the restock count saturates here; Rust would panic (debug) on underflow,
which requires more than 20 board tiles of one type. -/
def refillBowl (reorder : List Tile → List Tile) (boards : List Board)
    (acc : Bag × List Bowl) (bowl : Bowl) : Bag × List Bowl :=
  let (bag, done) := acc
  let r := bag.take BOWL_CAPACITY
  let next := r.1
  let bag := r.2
  if next.length < BOWL_CAPACITY then
    let used_tiles := boards.flatMap Board.get_active_tiles
    let unused_tiles := (List.range BOARD_DIMENSION).flatMap (fun t =>
      List.replicate (TILES_PER_TYPE - (used_tiles.filter (fun x => x == t)).length) t)
    let bag2 : Bag := ⟨reorder unused_tiles⟩
    let r2 := bag2.take (BOWL_CAPACITY - next.length)
    (r2.2, done ++ [bowl.fill (next ++ r2.1)])
  else
    (bag, done ++ [bowl.fill next])

/-- Round setup: `GameState::setup_next_round`, `src/movegen/src/gamestate.rs`
lines 71-107.  Every board resolves (`place_holds`), every bowl except the
centre (index 0) is refilled from the bag, the first-token holder (or player
0) becomes active, and the token resets. -/
def GameState.setup_next_round (reorder : List Tile → List Tile) (s : GameState) : GameState :=
  let boards := s.boards.map Board.place_holds
  let bowls' :=
    match s.bowls with
    | [] => ([] : List Bowl)
    | centre :: rest =>
      centre :: ((rest.foldl (refillBowl reorder boards) (s.bag, [])).2)
  let bag' :=
    match s.bowls with
    | [] => s.bag
    | _ :: rest => (rest.foldl (refillBowl reorder boards) (s.bag, [])).1
  { active_player := s.first_token_owner.getD 0
    boards := boards
    bowls := bowls'
    bag := bag'
    first_token_owner := none }

/-- Legal-move generation: `GameState::get_valid_moves`,
`src/movegen/src/gamestate.rs` lines 111-126.  Rust panics (`expect`) when
`active_player` is out of range; the model supplies the default board there
and every theorem below assumes a valid `active_player`. -/
def GameState.get_valid_moves (s : GameState) : List Move :=
  let board := s.boards.getD s.active_player Board.default
  s.bowls.enum.flatMap (fun p =>
    (p.2.get_tile_types).flatMap (fun tile =>
      (board.get_valid_rows_for_tile_type tile).map (fun row =>
        { bowl := p.1, tile_type := tile, row := row })))

/-- Move application: `GameState::make_move`, `src/movegen/src/gamestate.rs`
lines 130-170.  The pair returned is (result, state after the call), since
Rust mutates `self` in place: the validity check and the missing-bowl check
exit before any mutation; a `hold_tiles` failure would exit after the chosen
bowl was drained and the first token possibly assigned (the model keeps that
partially-mutated state, and the theorems show this exit is unreachable). -/
def GameState.make_move (s : GameState) (choice : Move) : MoveResult × GameState :=
  if choice ∉ s.get_valid_moves then (MoveResult.illegal, s)
  else
    match s.bowls[choice.bowl]? with
    | none => (MoveResult.illegal, s)
    | some bowl =>
      -- `take_tiles` drains the chosen bowl: (matched, remainder) plus the emptied bowl
      let taken := bowl.take_tiles choice.tile_type
      let bowls1 := s.bowls.set choice.bowl taken.2
      -- first pick from the centre this round: token and one extra penalty
      let first := choice.bowl == CENTRE_BOWL_IDX && s.first_token_owner.isNone
      let penalty := if first then 1 else 0
      let owner := if first then some s.active_player else s.first_token_owner
      let active_board := s.boards.getD s.active_player Board.default
      match active_board.hold_tiles choice.tile_type taken.1.1.length choice.row penalty with
      | none => (MoveResult.illegal, { s with bowls := bowls1, first_token_owner := owner })
      | some board' =>
        let boards' := s.boards.set s.active_player board'
        let centre := bowls1.getD CENTRE_BOWL_IDX Bowl.default
        let bowls2 := bowls1.set CENTRE_BOWL_IDX (centre.extend taken.1.2)
        let ap := s.active_player + 1
        let ap' := if ap ≥ boards'.length then 0 else ap
        (MoveResult.ok,
          { active_player := ap', boards := boards', bowls := bowls2
            bag := s.bag, first_token_owner := owner })

/-- Round-over test: `GameState::round_over`, `src/movegen/src/gamestate.rs`
lines 173-175. -/
def GameState.round_over (s : GameState) : Bool :=
  s.bowls.all (fun b => b.get_tile_types.isEmpty)

/-- Game-over test: `GameState::is_game_over`. -/
def GameState.is_game_over (s : GameState) : Bool :=
  s.boards.any (fun b => b.count_horizontal_lines > 0)

/-- Lexicographic greater-or-equal on `(score, horizontal lines)`. -/
def keyGE (a b : Nat × Nat) : Bool :=
  b.1 < a.1 || (a.1 == b.1 && b.2 ≤ a.2)

/-- Winner selection: `GameState::get_winner`, `src/movegen/src/gamestate.rs`
lines 185-192.  Rust's `Iterator::max_by_key` keeps the LAST maximal element
(its fold replaces the current maximum whenever the new key is >=), then
`unwrap()` panics on an empty board list (the model returns 0 there; every
theorem below supplies a non-empty list). -/
def GameState.get_winner (s : GameState) : Nat :=
  (s.boards.enum.foldl (fun acc x =>
      match acc with
      | none => some x
      | some a =>
        if keyGE (x.2.get_score, x.2.count_horizontal_lines)
            (a.2.get_score, a.2.count_horizontal_lines) then some x else some a)
    none).elim 0 Prod.fst

/-! Codec definitions, from `src/src/gamestate.rs`, `src/src/board.rs`,
`src/src/bowl.rs` and `src/src/protocol.rs` (the crate with the AzulFEN
codec; its game logic is line-for-line the logic embedded above). -/

/-- Outcome of a fallible Rust parse: success, a returned
`ParseGameStateError`, or a Rust panic (`fatal`). -/
inductive PResult (α : Type) where
  | ok : α → PResult α
  | err : PResult α
  | fatal : PResult α
deriving DecidableEq, Repr

/-- Rust `str::parse::<usize>` (ignoring overflow, which no theorem below
exercises): an optional leading `'+'` followed by one or more ASCII digits. -/
def parseUsizeChars (l : List Char) : Option Nat :=
  let digits := fun (d : List Char) =>
    if d.isEmpty then none
    else if d.all Char.isDigit then
      some (d.foldl (fun a c => a * 10 + (c.toNat - 48)) 0)
    else none
  match l with
  | '+' :: rest => digits rest
  | _ => digits l

/-- String version of `parseUsizeChars`. -/
def parseUsizeStr (s : String) : Option Nat :=
  parseUsizeChars s.toList

/-- Splitting on a non-empty separator pattern, Rust `str::split` semantics
(non-overlapping matches, scanned left to right).  The fuel argument (the
input length) only makes the recursion structural; each step consumes at
least one character, so it never runs out. -/
def splitOnGo (sep : List Char) : Nat → List Char → List Char → List (List Char)
  | _, [], acc => [acc.reverse]
  | 0, l, acc => [acc.reverse ++ l]
  | fuel + 1, c :: rest, acc =>
    if sep.isPrefixOf (c :: rest) then
      acc.reverse :: splitOnGo sep fuel ((c :: rest).drop sep.length) []
    else splitOnGo sep fuel rest (c :: acc)

/-- String wrapper for `splitOnGo` (Rust `str::split(pattern)`). -/
def strSplitOn (s : String) (sep : String) : List String :=
  (splitOnGo sep.toList s.toList.length s.toList []).map String.mk

/-- Rust `str::trim` (the FEN uses only ASCII whitespace). -/
def strTrim (s : String) : String :=
  String.mk ((s.toList.dropWhile Char.isWhitespace).reverse.dropWhile Char.isWhitespace).reverse

/-- Worker for whitespace splitting, accumulating the current token. -/
def splitWSGo : List Char → List Char → List (List Char)
  | [], acc => if acc.isEmpty then [] else [acc.reverse]
  | c :: rest, acc =>
    if c.isWhitespace then
      if acc.isEmpty then splitWSGo rest [] else acc.reverse :: splitWSGo rest []
    else splitWSGo rest (c :: acc)

/-- Rust `str::split_whitespace` / `split_ascii_whitespace`: maximal
non-empty runs between whitespace (the FEN only uses ASCII whitespace). -/
def splitWhitespaceStr (s : String) : List String :=
  (splitWSGo s.toList []).map String.mk

/-- Update one cell of a grid, no-op when out of range. -/
def setHoldCell (g : Grid) (y x : Nat) (v : Cell) : Grid :=
  g.set y ((g.getD y []).set x v)

/-- Placed-section pass of `Board::from_board_fen`, `src/src/board.rs`
lines 50-63.  Transcribed exactly: a digit advances `x`, a `'-'` writes the
positional tile type into `board.holds[y][x]` (the source writes into
`holds`, not `placed`), other characters (such as `'/'`) are skipped, and
after every character `x >= 5` wraps to the next row.  Writing with `y >= 5`
panics in Rust (`fatal`). -/
def parsePlacedGo : List Char → Nat → Nat → Grid → PResult Grid
  | [], _, _, holds => .ok holds
  | p :: rest, y, x, holds =>
    if p.isDigit then
      let x' := x + (p.toNat - 48)
      if x' ≥ BOARD_DIMENSION then parsePlacedGo rest (y + 1) 0 holds
      else parsePlacedGo rest y x' holds
    else if p == '-' then
      if y ≥ BOARD_DIMENSION then .fatal
      else
        let holds' := setHoldCell holds y x (some (get_tile_type_at_pos y x))
        let x' := x + 1
        if x' ≥ BOARD_DIMENSION then parsePlacedGo rest (y + 1) 0 holds'
        else parsePlacedGo rest y x' holds'
    else
      if x ≥ BOARD_DIMENSION then parsePlacedGo rest (y + 1) 0 holds
      else parsePlacedGo rest y x holds

/-- Rust `slice::chunks(2)`: pairs, with a possibly shorter last chunk. -/
def chunks2 : List Char → List (List Char)
  | [] => []
  | [a] => [[a]]
  | a :: b :: rest => [a, b] :: chunks2 rest

/-- Held-section pass of `Board::from_board_fen`, `src/src/board.rs`
lines 66-81.  For chunk `i`: parse the tile type from the first character
(parse failure is an error), read the second character (a one-character
final chunk panics on `h[1]`), parse the count, skip zero counts, then
write `count` cells of row `i` (Rust panics when `i >= 5` with a non-zero
count, or when the count exceeds the row length 5). -/
def parseHeldGo : Nat → List (List Char) → Grid → PResult Grid
  | _, [], holds => .ok holds
  | i, h :: rest, holds =>
    match h with
    | [c0] =>
      match parseUsizeStr (String.mk [c0]) with
      | none => .err
      | some _ => .fatal
    | [c0, c1] =>
      match parseUsizeStr (String.mk [c0]) with
      | none => .err
      | some tile_type =>
        match parseUsizeStr (String.mk [c1]) with
        | none => .err
        | some tile_count =>
          if tile_count == 0 then parseHeldGo (i + 1) rest holds
          else if i ≥ BOARD_DIMENSION then .fatal
          else if tile_count > BOARD_DIMENSION then .fatal
          else
            let holds' := (List.range tile_count).foldl
              (fun g n => setHoldCell g i n (some tile_type)) holds
            parseHeldGo (i + 1) rest holds'
    | _ => .ok holds

/-- Board decoding: `Board::from_board_fen`, `src/src/board.rs` lines 36-112.
A record must have exactly 7 whitespace-separated fields; the three bonus
bitstrings must have length 5 (`try_into` to `[bool; 5]`); score and
penalties parse as `usize`.  Tile types and counts are NOT range-checked
beyond the panics modelled in the passes above. -/
def Board.from_board_fen (board_fen : String) : PResult Board :=
  match splitWhitespaceStr board_fen with
  | [placed, held, bonus_rows, bonus_cols, bonus_tile_types, score, penalties] =>
    match parsePlacedGo placed.toList 0 0 Board.default.holds with
    | .fatal => .fatal
    | .err => .err
    | .ok holds1 =>
      match parseHeldGo 0 (chunks2 held.toList) holds1 with
      | .fatal => .fatal
      | .err => .err
      | .ok holds2 =>
        if bonus_rows.toList.length ≠ BOARD_DIMENSION then .err
        else if bonus_cols.toList.length ≠ BOARD_DIMENSION then .err
        else if bonus_tile_types.toList.length ≠ BOARD_DIMENSION then .err
        else
          match parseUsizeStr score with
          | none => .err
          | some sc =>
            match parseUsizeStr penalties with
            | none => .err
            | some pen =>
              .ok { holds := holds2
                    placed := Board.default.placed
                    bonuses := { rows := bonus_rows.toList.map (fun c => c == '1')
                                 columns := bonus_cols.toList.map (fun c => c == '1')
                                 tile_types := bonus_tile_types.toList.map (fun c => c == '1') }
                    penalties := pen
                    score := sc }
  | _ => .err

/-- Character-by-character tile list parse (used for bowl and bag records):
each character must individually parse as a `usize`. -/
def parseTileChars : List Char → PResult (List Tile)
  | [] => .ok []
  | c :: rest =>
    match parseUsizeStr (String.mk [c]) with
    | none => .err
    | some t =>
      match parseTileChars rest with
      | .ok ts => .ok (t :: ts)
      | e => e

/-- Bowl decoding: `Bowl::from_bowl_fen`, `src/src/bowl.rs` lines 16-27.
Empty input is an error (`chars().nth(0)`); a leading `'-'` yields an empty
bowl; otherwise every character must be a tile digit. -/
def Bowl.from_bowl_fen (bowl_fen : String) : PResult Bowl :=
  match bowl_fen.toList with
  | [] => .err
  | c :: rest =>
    if c == '-' then .ok ⟨[]⟩
    else
      match parseTileChars (c :: rest) with
      | .ok ts => .ok ⟨ts⟩
      | .err => .err
      | .fatal => .fatal

/-- Left-to-right collection of board parses, mirroring the short-circuiting
`collect::<Result<Vec<_>, _>>()`. -/
def collectBoards : List String → PResult (List Board)
  | [] => .ok []
  | f :: rest =>
    match Board.from_board_fen f with
    | .ok b =>
      match collectBoards rest with
      | .ok bs => .ok (b :: bs)
      | e => e
    | .err => .err
    | .fatal => .fatal

/-- Left-to-right collection of bowl parses. -/
def collectBowls : List String → PResult (List Bowl)
  | [] => .ok []
  | f :: rest =>
    match Bowl.from_bowl_fen f with
    | .ok b =>
      match collectBowls rest with
      | .ok bs => .ok (b :: bs)
      | e => e
    | .err => .err
    | .fatal => .fatal

/-- State decoding: `GameState::from_azul_fen`, `src/src/gamestate.rs`
lines 62-110.  Sections are split on the two-character pattern `"| "`.
Boards: trim, split on `";"`, trim each, drop the final (empty) piece.
Bowls: whitespace-split.  Bag: EVERY character of the raw third section
(which is not trimmed) must be a digit; `Bag::new` then shuffles the parsed
tiles, modelled by `reorder`.  Trailer: exactly two whitespace fields; the
first must parse; the second becomes the token owner when it parses and
`None` otherwise. -/
def GameState.from_azul_fen (reorder : List Tile → List Tile)
    (azul_fen : String) : PResult GameState :=
  let sections := strSplitOn azul_fen "| "
  match sections[0]? with
  | none => .err
  | some bsecRaw =>
    match collectBoards ((((strSplitOn (strTrim bsecRaw) ";")).map strTrim).dropLast) with
    | .err => .err
    | .fatal => .fatal
    | .ok boards =>
      match sections[1]? with
      | none => .err
      | some wsec =>
        match collectBowls (splitWhitespaceStr (strTrim wsec)) with
        | .err => .err
        | .fatal => .fatal
        | .ok bowls =>
          match sections[2]? with
          | none => .err
          | some bagsec =>
            match parseTileChars bagsec.toList with
            | .err => .err
            | .fatal => .fatal
            | .ok items =>
              match sections[3]? with
              | none => .err
              | some tsec =>
                match splitWhitespaceStr tsec with
                | [ap, tok] =>
                  match parseUsizeStr ap with
                  | none => .err
                  | some active_player =>
                    .ok { active_player := active_player
                          boards := boards
                          bowls := bowls
                          bag := ⟨reorder items⟩
                          first_token_owner := parseUsizeStr tok }
                | _ => .err

/-- Run-length encoding of the wall, part of `Board::fmt_uci_like`
(`src/src/board.rs` lines 393-413): digits count empty cells, `'-'` marks a
filled cell, rows separated by `'/'` (the trailing `'/'` is popped, which
`intercalate` reproduces). -/
def placedFen (placed : Grid) : String :=
  String.intercalate "/" (placed.map (fun row =>
    let r := row.foldl (fun (acc : String × Nat) c =>
      match c with
      | some _ => (acc.1 ++ (if acc.2 > 0 then toString acc.2 else "") ++ "-", 0)
      | none => (acc.1, acc.2 + 1)) ("", 0)
    r.1 ++ (if r.2 > 0 then toString r.2 else "")))

/-- Holds encoding, part of `Board::fmt_uci_like` (lines 416-426): per row,
the first held tile type and the number of held cells, or `"00"`. -/
def holdsFen (holds : Grid) : String :=
  String.join (holds.map (fun row =>
    match row.filterMap id with
    | [] => "00"
    | t :: rest => toString t ++ toString (1 + rest.length)))

/-- Bonus bitstring encoding (lines 429-440). -/
def bitString (bs : List Bool) : String :=
  String.join (bs.map (fun b => if b then "1" else "0"))

/-- Board encoding: `Board::fmt_uci_like`, `src/src/board.rs` lines 389-451,
ending with the `" ;"` marker. -/
def Board.fmt_uci_like (b : Board) : String :=
  placedFen b.placed ++ " " ++ holdsFen b.holds ++ " " ++
  bitString b.bonuses.rows ++ " " ++ bitString b.bonuses.columns ++ " " ++
  bitString b.bonuses.tile_types ++ " " ++
  toString b.score ++ " " ++ toString b.penalties ++ " ;"

/-- Bowl encoding: `Bowl::fmt_uci_like` (= `fmt_human`), `src/src/bowl.rs`:
`"-"` when empty, else the concatenated tile digits. -/
def Bowl.fmt_uci_like (b : Bowl) : String :=
  if b.tiles.isEmpty then "-" else String.join (b.tiles.map toString)

/-- Bag encoding: `Bag::fmt_uci_like`, `src/src/bag.rs`: concatenated tile
digits, front to back. -/
def Bag.fmt_uci_like (b : Bag) : String :=
  String.join (b.items.map toString)

/-- State encoding: `GameState::get_azul_fen`, `src/src/gamestate.rs`
lines 114-145: each board followed by a space, `"| "`, each bowl followed by
a space, `"| "`, the bag, `" | "`, active player, space, token owner or
`"-"`, newline. -/
def GameState.get_azul_fen (s : GameState) : String :=
  String.join (s.boards.map (fun b => b.fmt_uci_like ++ " ")) ++ "| " ++
  String.join (s.bowls.map (fun w => w.fmt_uci_like ++ " ")) ++ "| " ++
  s.bag.fmt_uci_like ++ " | " ++ toString s.active_player ++ " " ++
  (match s.first_token_owner with
   | some t => toString t
   | none => "-") ++ "\n"

/-- Move text decoding: `parse_move`, `src/movegen/src/protocol.rs`
lines 57-77 (identical in `src/src/protocol.rs`).  The length test is on
bytes; for the ASCII inputs the protocol allows, bytes and characters
coincide (on non-ASCII input of byte length 6 Rust's `split_at` can panic,
which the model does not represent; no theorem below touches such input).
Each two-character field parses as `usize`; row `0` is the floor and row
`n+1` is wall row `n`. -/
def parse_move (input : String) : Option Move :=
  if input.toList.length ≠ 6 then none
  else
    let l := input.toList
    let bowl := l.take 2
    let tile_type := (l.drop 2).take 2
    let row := l.drop 4
    match parseUsizeChars bowl with
    | none => none
    | some b =>
      match parseUsizeChars tile_type with
      | none => none
      | some t =>
        match parseUsizeChars row with
        | none => none
        | some r =>
          some { bowl := b, tile_type := t
                 row := if r == 0 then Row.Floor else Row.Wall (r - 1) }

/-- A reordering function that only permutes its input (the contract of the
Rust shuffles). -/
def PermFun (reorder : List Tile → List Tile) : Prop :=
  ∀ l, (reorder l).Perm l

/-- States reachable from legal play for a given player count, as driven by
the interface loop (`src/interface/src/main.rs`): `GameState::new` followed
by the initial `setup_next_round`, then legal `make_move` calls, with
`setup_next_round` at every round end.  Shuffle outcomes are arbitrary
permutations. -/
inductive Reachable (players : Nat) : GameState → Prop where
  | init : ∀ bagOrder reorder, bagOrder.Perm get_default_tileset → PermFun reorder →
      Reachable players ((GameState.new players bagOrder).setup_next_round reorder)
  | move : ∀ s choice, Reachable players s →
      (s.make_move choice).1 = MoveResult.ok →
      Reachable players (s.make_move choice).2
  | nextRound : ∀ s reorder, Reachable players s → s.round_over = true → PermFun reorder →
      Reachable players (s.setup_next_round reorder)

/-- Tiles of one type present in the whole game: bag, every bowl, and every
board cell (holds and placed). -/
def GameState.totalTileCount (s : GameState) (t : Tile) : Nat :=
  s.bag.items.count t + (s.bowls.map (fun b => b.tiles.count t)).sum
    + (s.boards.map (fun b => b.get_active_tiles.count t)).sum

/-- Concrete two-player state right after the initial round setup, with the
identity permutation standing in for both shuffles. -/
def initState2 : GameState :=
  (GameState.new 2 get_default_tileset).setup_next_round id

/-- Concrete reachable state after one legal move: player 0 takes the four
type-4 tiles of bowl 1 straight to the floor row. -/
def floorState2 : GameState :=
  (initState2.make_move { bowl := 1, tile_type := 4, row := Row.Floor }).2

/-- A board with a given score and a given number of completed wall rows
(used to exercise `get_winner`). -/
def scoreBoard (sc lines : Nat) : Board :=
  { Board.default with
    score := sc
    placed := (List.range BOARD_DIMENSION).map (fun r =>
      if r < lines then List.replicate BOARD_DIMENSION (some 0)
      else List.replicate BOARD_DIMENSION none) }

/-- A structurally well-formed AzulFEN whose indices are out of range: one
board, one bowl containing tile type `9`, bag `[0, 1]`, active player `99`. -/
def c8Input : String :=
  "5/5/5/5/5 0000000000 00000 00000 00000 0 0 ; | 9 | 01| 99 -"

/-- The state `from_azul_fen` builds from `c8Input`. -/
def c8State : GameState :=
  { active_player := 99
    boards := [Board.default]
    bowls := [⟨[9]⟩]
    bag := ⟨[0, 1]⟩
    first_token_owner := none }

/-! Shared lemmas about move generation and application. -/

lemma mem_valid_moves_elim {s : GameState} {choice : Move}
    (h : choice ∈ s.get_valid_moves) :
    ∃ bowl, s.bowls[choice.bowl]? = some bowl ∧ choice.tile_type ∈ bowl.get_tile_types ∧
      choice.row ∈ (s.boards.getD s.active_player Board.default).get_valid_rows_for_tile_type
        choice.tile_type := by
  simp only [GameState.get_valid_moves, List.mem_flatMap, List.mem_map] at h
  obtain ⟨⟨i, bowl⟩, hib, tile, htile, row, hrow, heq⟩ := h
  rw [List.mem_enum_iff_getElem?] at hib
  subst heq
  exact ⟨bowl, hib, htile, hrow⟩

lemma wall_mem_valid_rows_elim {b : Board} {t : Tile} {i : Nat}
    (h : Row.Wall i ∈ b.get_valid_rows_for_tile_type t) :
    ∃ hold, b.holds[i]? = some hold ∧
      (∀ c ∈ hold, ∀ x, c = some x → x = t) ∧
      (b.placed.getD i []).getD (get_tile_place_col t i) none ≠ some t := by
  simp only [Board.get_valid_rows_for_tile_type, List.mem_append, List.mem_filterMap,
    List.mem_singleton, reduceCtorEq, or_false] at h
  obtain ⟨⟨j, hold⟩, hmem, hf⟩ := h
  rw [List.mem_enum_iff_getElem?] at hmem
  simp only at hmem hf
  by_cases h1 : (hold.any fun c => isSomeAnd (fun x => decide (x ≠ t)) c) = true
  · rw [if_pos h1] at hf
    cases hf
  · rw [if_neg h1] at hf
    by_cases h2 : isSomeAnd (fun x => x == t)
        ((b.placed.getD j []).getD (get_tile_place_col t j) none) = true
    · rw [if_pos h2] at hf
      cases hf
    · rw [if_neg h2] at hf
      obtain rfl : j = i := by cases hf; rfl
      refine ⟨hold, hmem, ?_, ?_⟩
      · intro c hc x hcx
        subst hcx
        have := (List.any_eq_false.mp (Bool.not_eq_true _ ▸ h1 : _ = false)) _ hc
        simpa [isSomeAnd] using this
      · intro hcell
        rw [hcell] at h2
        simp [isSomeAnd] at h2

lemma hold_tiles_isSome_of_valid {b : Board} {t : Tile} {r : Row}
    (h : r ∈ b.get_valid_rows_for_tile_type t) (cnt pen : Nat) :
    (b.hold_tiles t cnt r pen).isSome := by
  cases r with
  | Floor => rfl
  | Wall i =>
    obtain ⟨hold, hmem, h1, _⟩ := wall_mem_valid_rows_elim h
    have hhead : isSomeAnd (fun x => decide (x ≠ t)) (hold.headD none) = false := by
      cases hold with
      | nil => rfl
      | cons a l =>
        cases a with
        | none => rfl
        | some x =>
          have := h1 (some x) (List.mem_cons_self _ _) x rfl
          subst this
          simp [isSomeAnd]
    simp only [Board.hold_tiles, hmem, hhead]
    simp

lemma make_move_fst_ok {s : GameState} {choice : Move}
    (h : choice ∈ s.get_valid_moves) :
    (s.make_move choice).1 = MoveResult.ok := by
  obtain ⟨bowl, hb, -, hrow⟩ := mem_valid_moves_elim h
  simp only [GameState.make_move, if_neg (not_not_intro h), hb]
  split
  · rename_i heq
    have hs := hold_tiles_isSome_of_valid hrow
      (bowl.take_tiles choice.tile_type).1.1.length
      (if (choice.bowl == CENTRE_BOWL_IDX && s.first_token_owner.isNone) = true then 1 else 0)
    rw [heq] at hs
    cases hs
  · rfl

/-- Claim C3: `make_move` returns `IllegalMoveError` exactly when the move is
absent from `get_valid_moves()`, and an erroring `make_move` leaves the whole
game state unmodified.  `active_player` is assumed in range, as Rust panics
(rather than returning) otherwise. -/
theorem make_move_illegal_iff (s : GameState) (choice : Move)
    (hp : s.active_player < s.boards.length) :
    ((s.make_move choice).1 = MoveResult.illegal ↔ choice ∉ s.get_valid_moves) ∧
    ((s.make_move choice).1 = MoveResult.illegal → (s.make_move choice).2 = s) := by
  by_cases hmem : choice ∈ s.get_valid_moves
  · have hok := make_move_fst_ok hmem
    refine ⟨?_, ?_⟩
    · rw [hok]
      simp [hmem]
    · intro hc
      rw [hok] at hc
      cases hc
  · have hres : s.make_move choice = (MoveResult.illegal, s) := by
      unfold GameState.make_move
      rw [if_pos hmem]
    rw [hres]
    simp [hmem]

/-- Witness for C3 at a concrete reachable state and an illegal move. -/
theorem make_move_illegal_iff_witness :
    (initState2.active_player < initState2.boards.length) ∧
    (((initState2.make_move { bowl := 0, tile_type := 0, row := Row.Floor }).1
        = MoveResult.illegal ↔
      { bowl := 0, tile_type := 0, row := Row.Floor } ∉ initState2.get_valid_moves) ∧
    ((initState2.make_move { bowl := 0, tile_type := 0, row := Row.Floor }).1
        = MoveResult.illegal →
      (initState2.make_move { bowl := 0, tile_type := 0, row := Row.Floor }).2 = initState2)) :=
  ⟨by decide, make_move_illegal_iff initState2 _ (by decide)⟩

/-- Claim C10: a successful `make_move` touches at most the chosen bowl, the
centre bowl, the active player's board, `active_player` and
`first_token_owner`: the bag, every other bowl, and every other board are
unchanged. -/
theorem make_move_frame (s : GameState) (choice : Move)
    (hok : (s.make_move choice).1 = MoveResult.ok) :
    (s.make_move choice).2.bag = s.bag ∧
    (∀ j, j ≠ choice.bowl → j ≠ CENTRE_BOWL_IDX →
      (s.make_move choice).2.bowls[j]? = s.bowls[j]?) ∧
    (∀ i, i ≠ s.active_player → (s.make_move choice).2.boards[i]? = s.boards[i]?) := by
  by_cases hmem : choice ∈ s.get_valid_moves
  · obtain ⟨bowl, hb, -, hrow⟩ := mem_valid_moves_elim hmem
    simp only [GameState.make_move, if_neg (not_not_intro hmem), hb] at hok ⊢
    rcases hht : (s.boards.getD s.active_player Board.default).hold_tiles choice.tile_type
        (bowl.take_tiles choice.tile_type).1.1.length choice.row
        (if (choice.bowl == CENTRE_BOWL_IDX && s.first_token_owner.isNone) = true
         then 1 else 0) with _ | board'
    · rw [hht] at hok
      simp at hok
    · dsimp only
      refine ⟨rfl, ?_, ?_⟩
      · intro j hj1 hj2
        rw [List.getElem?_set_ne (Ne.symm hj2), List.getElem?_set_ne (Ne.symm hj1)]
      · intro i hi
        rw [List.getElem?_set_ne (Ne.symm hi)]
  · have hres : s.make_move choice = (MoveResult.illegal, s) := by
      unfold GameState.make_move
      rw [if_pos hmem]
    rw [hres] at hok
    cases hok

/-- Witness for C10: a concrete successful move from the initial state. -/
theorem make_move_frame_witness :
    ((initState2.make_move { bowl := 1, tile_type := 4, row := Row.Floor }).1
      = MoveResult.ok) ∧
    ((initState2.make_move { bowl := 1, tile_type := 4, row := Row.Floor }).2.bag
      = initState2.bag ∧
    (∀ j, j ≠ 1 → j ≠ CENTRE_BOWL_IDX →
      (initState2.make_move { bowl := 1, tile_type := 4, row := Row.Floor }).2.bowls[j]?
        = initState2.bowls[j]?) ∧
    (∀ i, i ≠ initState2.active_player →
      (initState2.make_move { bowl := 1, tile_type := 4, row := Row.Floor }).2.boards[i]?
        = initState2.boards[i]?)) :=
  ⟨by decide, make_move_frame initState2 _ (by decide)⟩

lemma dedupConsecutive_eq_nil_iff (l : List Tile) :
    dedupConsecutive l = [] ↔ l = [] := by
  induction l with
  | nil => simp [dedupConsecutive]
  | cons a rest ih =>
    cases rest with
    | nil => simp [dedupConsecutive]
    | cons b r2 =>
      constructor
      · intro h
        unfold dedupConsecutive at h
        by_cases hab : (a == b) = true
        · rw [if_pos hab] at h
          exact absurd (ih.mp h) (by simp)
        · rw [if_neg hab] at h
          cases h
      · intro h
        cases h

lemma dedupConsecutive_subset {l : List Tile} {a : Tile}
    (h : a ∈ dedupConsecutive l) : a ∈ l := by
  induction l with
  | nil => cases h
  | cons x rest ih =>
    cases rest with
    | nil =>
      simp [dedupConsecutive] at h
      simp [h]
    | cons b r2 =>
      unfold dedupConsecutive at h
      by_cases hab : (x == b) = true
      · rw [if_pos hab] at h
        exact List.mem_cons_of_mem _ (ih h)
      · rw [if_neg hab] at h
        rcases List.mem_cons.mp h with rfl | h2
        · exact List.mem_cons_self _ _
        · exact List.mem_cons_of_mem _ (ih h2)

lemma typeAt_place_col (t i : Nat) (ht : t < BOARD_DIMENSION) (hi : i < BOARD_DIMENSION) :
    get_tile_type_at_pos i (get_tile_place_col t i) = t := by
  have h : ∀ t' < 5, ∀ i' < 5, get_tile_type_at_pos i' (get_tile_place_col t' i') = t' := by
    decide
  exact h t ht i hi

/-- Claim C4: legal-move generation is empty exactly when every bowl is empty
(equivalently exactly when `round_over()` holds), and no generated `Wall(i)`
move targets a filled destination cell or a staging row holding another type.
Hypotheses: valid `active_player` (Rust panics otherwise), the active board's
documented shape and diagonal-placement invariant, and in-range tile types in
the bowls — all guaranteed by the Rust types and the engine for states
arising in play. -/
theorem valid_moves_empty_iff_and_wall_safety (s : GameState)
    (hp : s.active_player < s.boards.length)
    (hshape : (s.boards.getD s.active_player Board.default).holds.length = BOARD_DIMENSION)
    (hdiag : ∀ r, r < BOARD_DIMENSION → ∀ c, c < BOARD_DIMENSION →
      Option.all (fun x => x == get_tile_type_at_pos r c)
        (((s.boards.getD s.active_player Board.default).placed.getD r []).getD c none) = true)
    (htiles : ∀ bw ∈ s.bowls, ∀ t ∈ bw.tiles, t < BOARD_DIMENSION) :
    (s.get_valid_moves = [] ↔ ∀ bw ∈ s.bowls, bw.tiles = []) ∧
    (s.get_valid_moves = [] ↔ s.round_over = true) ∧
    (∀ m ∈ s.get_valid_moves, ∀ i, m.row = Row.Wall i →
      ((s.boards.getD s.active_player Board.default).placed.getD i []).getD
          (get_tile_place_col m.tile_type i) none = none ∧
      (∀ c ∈ (s.boards.getD s.active_player Board.default).holds.getD i [],
        ∀ x, c = some x → x = m.tile_type)) := by
  have hempty : s.get_valid_moves = [] ↔ ∀ bw ∈ s.bowls, bw.tiles = [] := by
    unfold GameState.get_valid_moves
    rw [List.bind_eq_nil]
    constructor
    · intro h bw hbw
      obtain ⟨j, hj⟩ := List.mem_iff_getElem?.mp hbw
      have hj' : (j, bw) ∈ s.bowls.enum := List.mem_enum_iff_getElem?.mpr hj
      have := h (j, bw) hj'
      rw [List.bind_eq_nil] at this
      by_contra hne
      obtain ⟨t, ts, hts⟩ : ∃ t ts, bw.tiles = t :: ts := by
        cases htls : bw.tiles with
        | nil => exact absurd htls hne
        | cons t ts => exact ⟨t, ts, rfl⟩
      have htt : bw.get_tile_types ≠ [] := by
        rw [Bowl.get_tile_types, hts]
        exact (dedupConsecutive_eq_nil_iff _).not.mpr (by simp)
      obtain ⟨t0, ht0⟩ := List.exists_mem_of_ne_nil _ htt
      have := this t0 ht0
      simp [Board.get_valid_rows_for_tile_type] at this
    · intro h p hpmem
      rw [List.bind_eq_nil]
      intro t ht
      have hbw : p.2 ∈ s.bowls := by
        rw [List.mem_enum_iff_getElem?] at hpmem
        exact List.getElem?_mem hpmem
      have : p.2.tiles = [] := h p.2 hbw
      rw [Bowl.get_tile_types, this] at ht
      cases ht
  have hro : s.round_over = true ↔ ∀ bw ∈ s.bowls, bw.tiles = [] := by
    unfold GameState.round_over
    rw [List.all_eq_true]
    constructor
    · intro h bw hbw
      have := h bw hbw
      rw [Bowl.get_tile_types, List.isEmpty_iff] at this
      exact (dedupConsecutive_eq_nil_iff _).mp this
    · intro h bw hbw
      rw [Bowl.get_tile_types, h bw hbw]
      rfl
  refine ⟨hempty, by rw [hempty, hro], ?_⟩
  intro m hm i hrowi
  obtain ⟨bowl, hb, htt, hrow⟩ := mem_valid_moves_elim hm
  rw [hrowi] at hrow
  obtain ⟨hold, hholdi, hholdty, hcell⟩ := wall_mem_valid_rows_elim hrow
  have hlt : i < (s.boards.getD s.active_player Board.default).holds.length :=
    (List.getElem?_eq_some.mp hholdi).1
  have hi5 : i < BOARD_DIMENSION := hshape ▸ hlt
  have ht5 : m.tile_type < BOARD_DIMENSION :=
    htiles bowl (List.getElem?_mem hb) m.tile_type (dedupConsecutive_subset htt)
  constructor
  · rcases hcval : ((s.boards.getD s.active_player Board.default).placed.getD i []).getD
        (get_tile_place_col m.tile_type i) none with _ | x
    · rfl
    · exfalso
      have hcol5 : get_tile_place_col m.tile_type i < BOARD_DIMENSION :=
        Nat.mod_lt _ (by decide)
      have hall := hdiag i hi5 _ hcol5
      rw [hcval] at hall
      have hx : x = get_tile_type_at_pos i (get_tile_place_col m.tile_type i) := by
        simpa [Option.all] using hall
      rw [typeAt_place_col _ _ ht5 hi5] at hx
      exact hcell (hx ▸ hcval)
  · intro c hcmem x hcx
    have hgd : (s.boards.getD s.active_player Board.default).holds.getD i [] = hold := by
      rw [List.getD_eq_getElem?_getD, hholdi]
      rfl
    rw [hgd] at hcmem
    exact hholdty c hcmem x hcx

/-- Witness for C4 at the concrete initial state. -/
theorem valid_moves_empty_iff_and_wall_safety_witness :
    (initState2.active_player < initState2.boards.length) ∧
    ((initState2.get_valid_moves = [] ↔ ∀ bw ∈ initState2.bowls, bw.tiles = []) ∧
     (initState2.get_valid_moves = [] ↔ initState2.round_over = true) ∧
     (∀ m ∈ initState2.get_valid_moves, ∀ i, m.row = Row.Wall i →
       ((initState2.boards.getD initState2.active_player Board.default).placed.getD i []).getD
           (get_tile_place_col m.tile_type i) none = none ∧
       (∀ c ∈ (initState2.boards.getD initState2.active_player Board.default).holds.getD i [],
         ∀ x, c = some x → x = m.tile_type))) :=
  ⟨by decide, valid_moves_empty_iff_and_wall_safety initState2
    (by decide) (by decide) (by decide) (by decide)⟩

/-- Claim C1 (code bug): decoding its own serialized output fails for every
reachable state — `get_azul_fen` leaves a space between the bag digits and
the `" | "` trailer separator, so after splitting on `"| "` the bag section
ends with a space, whose parse as a tile fails.  Shown at the concrete
reachable initial two-player state. -/
theorem round_trip_fails_on_reachable_state :
    Reachable 2 initState2 ∧
    GameState.from_azul_fen id initState2.get_azul_fen = PResult.err :=
  ⟨Reachable.init get_default_tileset id (List.Perm.refl _) (fun l => List.Perm.refl l),
   by set_option maxRecDepth 8000 in decide⟩

/-- Claim C2 (counterexample): tile conservation fails at a reachable state.
After the initial setup every bowl holds four type-4 tiles (20 across bag,
bowls and boards); one legal move sending four of them to the floor row
leaves only 16 type-4 tiles in the whole game — the floor path converts
tiles into a bare penalty counter. -/
theorem tile_conservation_fails :
    Reachable 2 floorState2 ∧
    floorState2.totalTileCount 4 = 16 ∧ TILES_PER_TYPE = 20 :=
  ⟨Reachable.move initState2 { bowl := 1, tile_type := 4, row := Row.Floor }
     (Reachable.init get_default_tileset id (List.Perm.refl _) (fun l => List.Perm.refl l))
     (by decide),
   by decide, by decide⟩

/-- Claim C5 (code bug): `get_winner` does pick the lexicographic
`(score, lines)` maximum — scores `[10, 15, 15]` with line counts
`[0, 1, 2]` give index 2 — but on a full tie it returns the HIGHEST index
(Rust's `max_by_key` keeps the last maximal element), contradicting the
function's own doc comment and the claim, which promise the lowest. -/
theorem get_winner_tie_returns_highest_index :
    (GameState.mk 0 [scoreBoard 10 0, scoreBoard 15 1, scoreBoard 15 2] [] ⟨[]⟩ none).get_winner
      = 2 ∧
    (GameState.mk 0 [Board.default, Board.default] [] ⟨[]⟩ none).get_winner = 1 := by
  constructor
  · decide
  · decide

/-- Claim C6 (code bug): the column-bonus test
`self.placed.iter().all(|row| row.get(i).is_some())` checks only that index
`i` exists in each row, so `place_holds` on a completely empty default board
claims all five column bonuses and awards `5 * COLUMN_BONUS = 35` points. -/
theorem column_bonus_awarded_on_empty_board :
    Board.default.place_holds.score = 35 ∧
    Board.default.place_holds.bonuses.columns = List.replicate BOARD_DIMENSION true ∧
    (∀ row ∈ Board.default.placed, ∀ c ∈ row, c = none) ∧
    COLUMN_BONUS = 7 := by
  refine ⟨by decide, by decide, by decide, by decide⟩

/-- Claim C7 (code bug): the floor path of `hold_tiles` returns before the
`penalty` argument is applied: staging 2 tiles to the floor with an extra
penalty of 1 leaves the counter at 2, not 3 (everything else unchanged). -/
theorem floor_drops_extra_penalty :
    Board.default.hold_tiles 0 2 Row.Floor 1
      = some { Board.default with penalties := 2 } := by
  decide

/-- Claim C8 (counterexample): the decoder accepts out-of-range indices — on
`c8Input` it succeeds and builds a state whose single bowl holds tile type 9
(valid types are `0..4`) and whose active player is 99 with only one board. -/
theorem decoder_accepts_out_of_range :
    GameState.from_azul_fen id c8Input = PResult.ok c8State ∧
    c8State.active_player = 99 ∧ c8State.boards.length = 1 ∧
    c8State.bowls = [⟨[9]⟩] ∧ BOARD_DIMENSION = 5 := by
  refine ⟨by set_option maxRecDepth 8000 in decide, by decide, by decide, by decide, by decide⟩

/-- Claim C9 (counterexample): `parse_move` also succeeds on `"+00000"`,
which is not a string of six digits — Rust's `usize` parse accepts a leading
`'+'` inside a two-character field. -/
theorem parse_move_accepts_plus_sign :
    parse_move "+00000" = some { bowl := 0, tile_type := 0, row := Row.Floor } ∧
    ¬ (∀ c ∈ "+00000".toList, c.isDigit) := by
  refine ⟨by decide, by decide⟩

/-- Claim C8 (amended): the decoder rejects structurally invalid records — a
board record with a field count other than 7 (for every input string), a
bonus bitstring of wrong length, and a non-numeric score field (shown on
concrete records) — but it does not range-check indices (see the
counterexample theorem). -/
theorem decoder_structural_errors :
    (∀ s : String, (splitWhitespaceStr s).length ≠ 7 → Board.from_board_fen s = PResult.err) ∧
    Board.from_board_fen "5/5/5/5/5 0000000000 0000 00000 00000 0 0" = PResult.err ∧
    Board.from_board_fen "5/5/5/5/5 0000000000 00000 00000 00000 x 0" = PResult.err := by
  refine ⟨?_, by decide, by decide⟩
  intro s h
  unfold Board.from_board_fen
  rcases hl : splitWhitespaceStr s with
    _ | ⟨p1, _ | ⟨p2, _ | ⟨p3, _ | ⟨p4, _ | ⟨p5, _ | ⟨p6, _ | ⟨p7, _ | ⟨p8, r⟩⟩⟩⟩⟩⟩⟩⟩
  · rfl
  · rfl
  · rfl
  · rfl
  · rfl
  · rfl
  · rfl
  · rw [hl] at h
    simp at h
  · rfl

/-- Witness for C8 (amended) at a concrete 2-field record. -/
theorem decoder_structural_errors_witness :
    ((splitWhitespaceStr "5/5/5/5/5 00").length ≠ 7) ∧
    Board.from_board_fen "5/5/5/5/5 00" = PResult.err :=
  ⟨by decide, decoder_structural_errors.1 "5/5/5/5/5 00" (by decide)⟩

lemma parseUsizeChars_pair_digits (a b : Char) (ha : a.isDigit = true)
    (hb : b.isDigit = true) :
    parseUsizeChars [a, b] = some (10 * (a.toNat - 48) + (b.toNat - 48)) := by
  have hane : a ≠ '+' := by
    intro h
    rw [h] at ha
    exact absurd ha (by decide)
  simp only [parseUsizeChars]
  split
  · rename_i rest heq
    injection heq with h1 h2
    exact absurd h1 hane
  · simp [ha, hb]
    omega

lemma parseUsizeChars_pair_isSome (a b : Char) :
    (parseUsizeChars [a, b]).isSome = true ↔
      ((a.isDigit = true ∧ b.isDigit = true) ∨ (a = '+' ∧ b.isDigit = true)) := by
  by_cases hp : a = '+'
  · subst hp
    cases hb : b.isDigit
    · simp [parseUsizeChars, hb]
    · simp [parseUsizeChars, hb]
  · cases ha : a.isDigit
    · have : parseUsizeChars [a, b] = none := by
        simp only [parseUsizeChars]
        split
        · rename_i rest heq
          injection heq with h1 h2
          exact absurd h1 hp
        · simp [ha]
      simp [this, ha, hp]
    · cases hb : b.isDigit
      · have : parseUsizeChars [a, b] = none := by
          simp only [parseUsizeChars]
          split
          · rename_i rest heq
            injection heq with h1 h2
            exact absurd h1 hp
          · simp [ha, hb]
        simp [this, hb]
      · rw [parseUsizeChars_pair_digits a b ha hb]
        simp [ha, hb]

/-- Claim C9 (amended): `parse_move` fails on every input whose character
count is not 6; on a 6-character input it succeeds exactly when each of the
three 2-character fields is two ASCII digits or `'+'` followed by a digit
(Rust's `usize` grammar), and on all-digit input it returns the 2-digit
bowl index, tile type, and row selector with `00` as Floor and `NN` (N >= 1)
as `Wall(N-1)`. -/
theorem parse_move_characterization :
    (∀ s : String, s.toList.length ≠ 6 → parse_move s = none) ∧
    (∀ c1 c2 c3 c4 c5 c6 : Char, c1.isDigit = true → c2.isDigit = true →
      c3.isDigit = true → c4.isDigit = true → c5.isDigit = true → c6.isDigit = true →
      parse_move (String.mk [c1, c2, c3, c4, c5, c6]) =
        some { bowl := 10 * (c1.toNat - 48) + (c2.toNat - 48)
               tile_type := 10 * (c3.toNat - 48) + (c4.toNat - 48)
               row := if (10 * (c5.toNat - 48) + (c6.toNat - 48)) == 0 then Row.Floor
                      else Row.Wall (10 * (c5.toNat - 48) + (c6.toNat - 48) - 1) }) ∧
    (∀ c1 c2 c3 c4 c5 c6 : Char,
      (parse_move (String.mk [c1, c2, c3, c4, c5, c6])).isSome = true ↔
        (((c1.isDigit = true ∧ c2.isDigit = true) ∨ (c1 = '+' ∧ c2.isDigit = true)) ∧
         ((c3.isDigit = true ∧ c4.isDigit = true) ∨ (c3 = '+' ∧ c4.isDigit = true)) ∧
         ((c5.isDigit = true ∧ c6.isDigit = true) ∨ (c5 = '+' ∧ c6.isDigit = true)))) := by
  refine ⟨?_, ?_, ?_⟩
  · intro s h
    unfold parse_move
    rw [if_pos h]
  · intro c1 c2 c3 c4 c5 c6 h1 h2 h3 h4 h5 h6
    simp only [parse_move, List.take, List.drop]
    rw [if_neg (by simp)]
    rw [parseUsizeChars_pair_digits c1 c2 h1 h2, parseUsizeChars_pair_digits c3 c4 h3 h4,
      parseUsizeChars_pair_digits c5 c6 h5 h6]
  · intro c1 c2 c3 c4 c5 c6
    rw [← parseUsizeChars_pair_isSome c1 c2, ← parseUsizeChars_pair_isSome c3 c4,
      ← parseUsizeChars_pair_isSome c5 c6]
    simp only [parse_move, List.take, List.drop]
    rw [if_neg (by simp)]
    rcases hq1 : parseUsizeChars [c1, c2] with _ | v1 <;>
      rcases hq2 : parseUsizeChars [c3, c4] with _ | v2 <;>
        rcases hq3 : parseUsizeChars [c5, c6] with _ | v3 <;>
          simp [hq1, hq2, hq3]

/-- Witness for C9 at the concrete inputs `"0400"`, `"040102"`, `"+40102"`. -/
theorem parse_move_characterization_witness :
    (("0400" : String).toList.length ≠ 6 ∧ parse_move "0400" = none) ∧
    parse_move "040102" = some { bowl := 4, tile_type := 1, row := Row.Wall 1 } ∧
    ((parse_move "+40102").isSome = true ↔
      ((('+' : Char).isDigit = true ∧ ('4' : Char).isDigit = true) ∨
        ('+' = '+' ∧ ('4' : Char).isDigit = true)) ∧
      ((('0' : Char).isDigit = true ∧ ('1' : Char).isDigit = true) ∨
        ('0' = '+' ∧ ('1' : Char).isDigit = true)) ∧
      ((('0' : Char).isDigit = true ∧ ('2' : Char).isDigit = true) ∨
        ('0' = '+' ∧ ('2' : Char).isDigit = true))) :=
  ⟨⟨by decide, parse_move_characterization.1 "0400" (by decide)⟩,
   by
    have h := parse_move_characterization.2.1 '0' '4' '0' '1' '0' '2'
      (by decide) (by decide) (by decide) (by decide) (by decide) (by decide)
    simpa using h,
   parse_move_characterization.2.2 '+' '4' '0' '1' '0' '2'⟩

lemma sum_map_set {α : Type} (f : α → Nat) (l : List α) :
    ∀ (i : Nat) (x d : α), i < l.length →
      ((l.set i x).map f).sum + f (l.getD i d) = (l.map f).sum + f x := by
  induction l with
  | nil =>
    intro i x d h
    simp at h
  | cons a l ih =>
    intro i x d h
    cases i with
    | zero =>
      simp [List.getD]
      omega
    | succ i =>
      have hset : (a :: l).set (i + 1) x = a :: l.set i x := rfl
      have hgd : (a :: l).getD (i + 1) d = l.getD i d := rfl
      rw [hset, hgd]
      simp only [List.map_cons, List.sum_cons]
      have := ih i x d (by simpa using h)
      omega

lemma count_sortTiles (l : List Tile) (t : Tile) : (sortTiles l).count t = l.count t :=
  (List.perm_insertionSort _ l).count_eq t

lemma count_filter_beq_ne (l : List Tile) (tt t : Tile) (h : t ≠ tt) :
    (l.filter (fun x => x != tt)).count t = l.count t :=
  List.count_filter (by simpa using h)

lemma count_filter_beq_self (l : List Tile) (tt : Tile) :
    (l.filter (fun x => x != tt)).count tt = 0 := by
  rw [List.count_eq_zero]
  intro hmem
  have := List.of_mem_filter hmem
  simp at this

/-- Claim C2 (amended): each tile type's total over bag, bowls, and board
cells is the fixed 20 right after `GameState::new`; but the total is not an
invariant of play: a `make_move` whose destination is the floor row removes
the matched tiles from the tile economy (the model proves the exact
bookkeeping: the new total plus the matched count equals the old total, and
only the chosen type is affected). -/
theorem tile_conservation_amended :
    (∀ players bagOrder, bagOrder.Perm get_default_tileset →
      ∀ t, t < BOARD_DIMENSION →
        (GameState.new players bagOrder).totalTileCount t = TILES_PER_TYPE) ∧
    (∀ s : GameState, ∀ choice : Move, choice.row = Row.Floor →
      (s.make_move choice).1 = MoveResult.ok →
      ∀ t : Tile, (s.make_move choice).2.totalTileCount t
          + (if t = choice.tile_type
             then (s.bowls.getD choice.bowl Bowl.default).tiles.count t else 0)
        = s.totalTileCount t) := by
  constructor
  · intro players bagOrder hperm t ht
    unfold GameState.totalTileCount GameState.new
    have hbag : (⟨bagOrder⟩ : Bag).items.count t = TILES_PER_TYPE := by
      have h20 : ∀ t' < 5, get_default_tileset.count t' = 20 := by decide
      have := hperm.count_eq t
      simpa [this] using h20 t ht
    have hbowls : ((List.replicate (get_bowl_count players) Bowl.default).map
        (fun b => b.tiles.count t)).sum = 0 := by
      simp [List.map_replicate, Bowl.default]
    have hboards : ((List.replicate players Board.default).map
        (fun b => b.get_active_tiles.count t)).sum = 0 := by
      have : Board.default.get_active_tiles = [] := by decide
      simp [List.map_replicate, this]
    rw [hbag, hbowls, hboards]
    rfl
  · intro s choice hfloor hok t
    by_cases hmem : choice ∈ s.get_valid_moves
    · obtain ⟨bowl, hb, -, -⟩ := mem_valid_moves_elim hmem
      have hcb : choice.bowl < s.bowls.length := (List.getElem?_eq_some.mp hb).1
      have hgd : s.bowls.getD choice.bowl Bowl.default = bowl := by
        rw [List.getD_eq_getElem?_getD, hb]
        rfl
      simp only [GameState.make_move, if_neg (not_not_intro hmem), hb, hfloor,
        Board.hold_tiles, Bowl.take_tiles] at hok ⊢
      simp only [GameState.totalTileCount]
      -- the active board only changes its penalty counter: cell contents equal
      have hboards : ((s.boards.set s.active_player
          { s.boards.getD s.active_player Board.default with
            penalties := (s.boards.getD s.active_player Board.default).penalties
              + (bowl.tiles.filter (fun x => x == choice.tile_type)).length }).map
            (fun b => b.get_active_tiles.count t)).sum
          = (s.boards.map (fun b => b.get_active_tiles.count t)).sum := by
        by_cases hap : s.active_player < s.boards.length
        · have := sum_map_set (fun b => b.get_active_tiles.count t) s.boards
            s.active_player
            { s.boards.getD s.active_player Board.default with
              penalties := (s.boards.getD s.active_player Board.default).penalties
                + (bowl.tiles.filter (fun x => x == choice.tile_type)).length }
            Board.default hap
          simpa [Board.get_active_tiles] using this
        · rw [List.set_eq_of_length_le (by omega)]
      have hlen0 : 0 < s.bowls.length := Nat.lt_of_le_of_lt (Nat.zero_le _) hcb
      have hsort := count_sortTiles (bowl.tiles.filter (fun x => x != choice.tile_type)) t
      by_cases hc0 : choice.bowl = CENTRE_BOWL_IDX
      · rw [hc0] at hb hcb hgd ⊢
        rw [List.set_set]
        have hcentre : (s.bowls.set CENTRE_BOWL_IDX (⟨[]⟩ : Bowl)).getD CENTRE_BOWL_IDX
            Bowl.default = (⟨[]⟩ : Bowl) := by
          rw [List.getD_eq_getElem?_getD, List.getElem?_set_eq_of_lt _ hcb]
          rfl
        rw [hcentre, hboards, hgd]
        have hsum := sum_map_set (fun b => b.tiles.count t) s.bowls CENTRE_BOWL_IDX
          ((⟨[]⟩ : Bowl).extend (bowl.tiles.filter (fun x => x != choice.tile_type)))
          Bowl.default hcb
        rw [hgd] at hsum
        dsimp only at hsum ⊢
        have hext0 : ((⟨[]⟩ : Bowl).extend
            (bowl.tiles.filter (fun x => x != choice.tile_type))).tiles.count t
            = (bowl.tiles.filter (fun x => x != choice.tile_type)).count t := by
          simp only [Bowl.extend]
          rw [count_sortTiles]
          simp
        rw [hext0] at hsum
        by_cases htt : t = choice.tile_type
        · subst htt
          rw [if_pos rfl]
          rw [count_filter_beq_self] at hsum
          omega
        · rw [if_neg htt]
          rw [count_filter_beq_ne _ _ _ htt] at hsum
          omega
      · have hcentre : (s.bowls.set choice.bowl (⟨[]⟩ : Bowl)).getD CENTRE_BOWL_IDX
            Bowl.default = s.bowls.getD CENTRE_BOWL_IDX Bowl.default := by
          rw [List.getD_eq_getElem?_getD, List.getElem?_set_ne hc0,
            ← List.getD_eq_getElem?_getD]
        rw [hcentre, hboards, hgd]
        have hs1 := sum_map_set (fun b => b.tiles.count t) s.bowls choice.bowl
          (⟨[]⟩ : Bowl) Bowl.default hcb
        rw [hgd] at hs1
        have hlen1 : CENTRE_BOWL_IDX < (s.bowls.set choice.bowl (⟨[]⟩ : Bowl)).length := by
          simpa using hlen0
        have hs2 := sum_map_set (fun b => b.tiles.count t)
          (s.bowls.set choice.bowl (⟨[]⟩ : Bowl)) CENTRE_BOWL_IDX
          ((s.bowls.getD CENTRE_BOWL_IDX Bowl.default).extend
            (bowl.tiles.filter (fun x => x != choice.tile_type)))
          Bowl.default hlen1
        rw [hcentre] at hs2
        have hext : ((s.bowls.getD CENTRE_BOWL_IDX Bowl.default).extend
            (bowl.tiles.filter (fun x => x != choice.tile_type))).tiles.count t
            = (s.bowls.getD CENTRE_BOWL_IDX Bowl.default).tiles.count t
              + (bowl.tiles.filter (fun x => x != choice.tile_type)).count t := by
          simp only [Bowl.extend]
          rw [count_sortTiles, List.count_append]
        dsimp only at hs1 hs2 ⊢
        rw [hext] at hs2
        simp only [List.count_nil] at hs1
        by_cases htt : t = choice.tile_type
        · subst htt
          rw [if_pos rfl]
          rw [count_filter_beq_self] at hs2
          omega
        · rw [if_neg htt]
          rw [count_filter_beq_ne _ _ _ htt] at hs2
          omega
    · have : s.make_move choice = (MoveResult.illegal, s) := by
        unfold GameState.make_move
        rw [if_pos hmem]
      rw [this] at hok
      cases hok

/-- Witness for C2 (amended): a fresh game holds 20 tiles of type 3, and the
concrete floor move from `initState2` books its four matched tiles out of
the economy. -/
theorem tile_conservation_amended_witness :
    ((GameState.new 2 get_default_tileset).totalTileCount 3 = TILES_PER_TYPE) ∧
    ((initState2.make_move { bowl := 1, tile_type := 4, row := Row.Floor }).2.totalTileCount 4
      + (if (4 : Tile) = 4
         then (initState2.bowls.getD 1 Bowl.default).tiles.count 4 else 0)
      = initState2.totalTileCount 4) :=
  ⟨tile_conservation_amended.1 2 get_default_tileset (List.Perm.refl _) 3 (by decide),
   tile_conservation_amended.2 initState2 { bowl := 1, tile_type := 4, row := Row.Floor }
     rfl (by decide) 4⟩

end Azul
